import Mathlib

/-!
Verification of the Graviton migration advisor (`ec_graviton_migration.py`).

The Python source is shallowly embedded: strings become `String`, Python
floats become `ℚ` (the program only compares prices for truthiness and
computes one rounded percentage; the exact binary-float tie-breaking of
Python's `round` is immaterial to every property below because the same
`roundTo2` function is used on both sides of each statement), `None` becomes
`none`, and a Python function that can raise an exception returns an
`Option` whose `none` models the uncaught exception.  Python's `[a-z]` and
`\d` regex classes are modelled as ASCII lowercase / ASCII digit, and
`str.lower` as ASCII lowercase mapping, which agree with Python on all ASCII
input.
-/

namespace GravitonAdvisor

/-- `self.gpu_instance_families = ['p', 'g', 'vt', 'dl', 'trn', 'inf']`. -/
def gpu_instance_families : List String := ["p", "g", "vt", "dl", "trn", "inf"]

/-- Embedding of `is_gpu_instance` (source lines 49-55).
`prefix = instance_type.split('.')[0]` keeps the characters before the first
dot (or the whole string when there is no dot); `family = prefix[0]` raises
`IndexError` when that slice is empty, which is modelled by `none`.
The returned Boolean is `family in self.gpu_instance_families`, where
`family` is a single character compared against the list of family strings. -/
def is_gpu_instance (instance_type : String) : Option Bool :=
  if instance_type.data = [] then some false
  else
    match instance_type.data.takeWhile (fun c => c ≠ '.') with
    | [] => none
    | c :: _ => some (gpu_instance_families.contains (String.mk [c]))

/-- Embedding of `is_graviton_instance` (source lines 57-61):
`re.match(r"^[a-z]\d+g\.", instance_type)`. -/
def is_graviton_instance (instance_type : String) : Bool :=
  match instance_type.data with
  | [] => false
  | c :: rest =>
    c.isLower &&
      (rest.takeWhile Char.isDigit ≠ [] &&
        match rest.dropWhile Char.isDigit with
        | 'g' :: '.' :: _ => true
        | _ => false)

/-- Embedding of `re.match(r"^([a-z])(\d+)([a-z]*)\.(.+)$", instance_type)`
used by `match_graviton_instances` (source line 182): a single lowercase
family letter, a nonempty run of digits, an optional run of lowercase
letters, a literal dot, then a nonempty remainder (the size; `.` in the
regex excludes the newline character). -/
def parseInstanceType (s : String) : Option (Char × List Char × List Char × List Char) :=
  match s.data with
  | [] => none
  | f :: rest =>
    let gen := rest.takeWhile Char.isDigit
    let rest2 := rest.dropWhile Char.isDigit
    let suffix := rest2.takeWhile Char.isLower
    let rest3 := rest2.dropWhile Char.isLower
    if f.isLower = true ∧ gen ≠ [] ∧ rest3.head? = some '.' ∧ rest3.tail ≠ [] ∧
        rest3.tail.all (fun c => c ≠ '\n') then
      some (f, gen, suffix, rest3.tail)
    else none

/-- Embedding of `match_graviton_instances` (source lines 176-208).
The source checks the regex before calling `is_gpu_instance`, so when the
GPU check runs the type starts with a lowercase letter and
`is_gpu_instance` cannot raise; `getD false` is therefore never exercised
on its default. -/
def match_graviton_instances (instance_type : String) :
    Option String × Option String × Option String :=
  match parseInstanceType instance_type with
  | none => (none, none, none)
  | some (family, _gen, _suffix, size) =>
    if (is_gpu_instance instance_type).getD false || is_graviton_instance instance_type then
      (none, none, none)
    else if family = 't' then
      (some (String.mk ('t' :: '4' :: 'g' :: '.' :: size)), none, none)
    else if family = 'c' ∨ family = 'm' ∨ family = 'r' then
      (some (String.mk (family :: '6' :: 'g' :: '.' :: size)),
       some (String.mk (family :: '7' :: 'g' :: '.' :: size)),
       if family ≠ 'r' then some (String.mk (family :: '8' :: 'g' :: '.' :: size)) else none)
    else if family = 'x' then
      (some (String.mk ('x' :: '2' :: 'g' :: '.' :: size)), none, none)
    else
      (some (String.mk (family :: '6' :: 'g' :: '.' :: size)), none, none)

/-- The spec's GPU classifier, stated from its words for the rule-table
comparison: "true iff the family letter (the prefix before the first digit)
belongs to a fixed set of GPU-associated family letters". -/
def isGpuInstance_spec (instance_type : String) : Bool :=
  gpu_instance_families.contains
    (String.mk (instance_type.data.takeWhile (fun c => !c.isDigit)))

/-- The rule table of claim C2, stated from the claim's words: parse the
type; unparsable, GPU-classified or already-migrated types give all-absent;
otherwise dispatch on the family letter (`t`; `c` or `m`; `r`; `x`;
default). -/
def mapCandidates_claim (instance_type : String) :
    Option String × Option String × Option String :=
  match parseInstanceType instance_type with
  | none => (none, none, none)
  | some (family, _gen, _suffix, size) =>
    if isGpuInstance_spec instance_type || is_graviton_instance instance_type then
      (none, none, none)
    else if family = 't' then
      (some (String.mk ('t' :: '4' :: 'g' :: '.' :: size)), none, none)
    else if family = 'c' ∨ family = 'm' then
      (some (String.mk (family :: '6' :: 'g' :: '.' :: size)),
       some (String.mk (family :: '7' :: 'g' :: '.' :: size)),
       some (String.mk (family :: '8' :: 'g' :: '.' :: size)))
    else if family = 'r' then
      (some (String.mk ('r' :: '6' :: 'g' :: '.' :: size)),
       some (String.mk ('r' :: '7' :: 'g' :: '.' :: size)),
       none)
    else if family = 'x' then
      (some (String.mk ('x' :: '2' :: 'g' :: '.' :: size)), none, none)
    else
      (some (String.mk (family :: '6' :: 'g' :: '.' :: size)), none, none)

/-- The class constant `REGION_LOCATION_MAP` (source lines 12-35). -/
def REGION_LOCATION_MAP : List (String × String) :=
  [("us-east-1", "US East (N. Virginia)"),
   ("us-east-2", "US East (Ohio)"),
   ("us-west-1", "US West (N. California)"),
   ("us-west-2", "US West (Oregon)"),
   ("af-south-1", "Africa (Cape Town)"),
   ("ap-east-1", "Asia Pacific (Hong Kong)"),
   ("ap-south-1", "Asia Pacific (Mumbai)"),
   ("ap-northeast-1", "Asia Pacific (Tokyo)"),
   ("ap-northeast-2", "Asia Pacific (Seoul)"),
   ("ap-northeast-3", "Asia Pacific (Osaka)"),
   ("ap-southeast-1", "Asia Pacific (Singapore)"),
   ("ap-southeast-2", "Asia Pacific (Sydney)"),
   ("ap-southeast-3", "Asia Pacific (Jakarta)"),
   ("ca-central-1", "Canada (Central)"),
   ("eu-central-1", "EU (Frankfurt)"),
   ("eu-west-1", "EU (Ireland)"),
   ("eu-west-2", "EU (London)"),
   ("eu-west-3", "EU (Paris)"),
   ("eu-north-1", "EU (Stockholm)"),
   ("eu-south-1", "EU (Milan)"),
   ("me-south-1", "Middle East (Bahrain)"),
   ("sa-east-1", "South America (Sao Paulo)")]

/-- `price_data[instance_type] = price`: Python dict assignment keeps the
position of an existing key and updates its value, otherwise appends. -/
def insertPrice : List (String × ℚ) → String → ℚ → List (String × ℚ)
  | [], k, v => [(k, v)]
  | (k2, v2) :: rest, k, v =>
    if k2 = k then (k2, v) :: rest else (k2, v2) :: insertPrice rest k v

/-- The inner loop of source lines 93-97: every `(instance_type, price)`
pair extracted from one page is stored in the accumulating dict. -/
def insertItems (m : List (String × ℚ)) (items : List (String × ℚ)) : List (String × ℚ) :=
  items.foldl (fun acc it => insertPrice acc it.1 it.2) m

/-- Observable actions of `fetch_prices_for_region`, in program order:
a pricing query (`get_products`), a sleep of the given number of
milliseconds, the `[WARNING] unknown region` log, the `[ERROR] fetch
failed` log, and the `[ERROR] giving up` log. -/
inductive FetchEvent
  | query
  | sleepMs (n : Nat)
  | warnUnknownRegion
  | errorLogged
  | abandonLogged
deriving DecidableEq

/-- One successful `get_products` response, after `_extract_price_from_product`
has been applied to every entry of its `PriceList`: the extracted
`(instance type, price)` pairs, and whether a `NextToken` was returned. -/
structure PageOk where
  items : List (String × ℚ)
  hasNext : Bool
deriving DecidableEq

/-- One network interaction as seen by the `while` loop: `some page` when
`get_products` returns, `none` when it raises. -/
abbrev PageResponse := Option PageOk

/-- Embedding of the `while retries > 0` loop of source lines 81-112.
The script is the sequence of responses the pricing source would give to
successive requests; the loop consumes one response per request.  On a
response the items are stored; without a `NextToken` the loop breaks,
otherwise it sleeps 0.5 s and continues.  On an exception the error is
logged, `retries` is decremented, the loop sleeps 2 s, and when the
counter reaches zero it logs abandonment and breaks. -/
def fetchLoop : List PageResponse → Nat → List (String × ℚ) → List FetchEvent →
    List (String × ℚ) × List FetchEvent
  | _, 0, acc, tr => (acc, tr)
  | [], _, acc, tr => (acc, tr)
  | some page :: rest, retries, acc, tr =>
    let acc2 := insertItems acc page.items
    if page.hasNext then
      fetchLoop rest retries acc2 (tr ++ [.query, .sleepMs 500])
    else
      (acc2, tr ++ [.query])
  | none :: rest, retries, acc, tr =>
    if retries - 1 = 0 then
      (acc, tr ++ [.query, .errorLogged, .sleepMs 2000, .abandonLogged])
    else
      fetchLoop rest (retries - 1) acc (tr ++ [.query, .errorLogged, .sleepMs 2000])

/-- Embedding of `fetch_prices_for_region` (source lines 63-114): an
unknown region logs a warning and returns an empty dict immediately; a
known region runs the retrying pagination loop with `retries = 3`.
Every value of `REGION_LOCATION_MAP` is a nonempty string, so Python's
`if not location` is exactly the missing-key test. -/
def fetch_prices_for_region (region : String) (script : List PageResponse) :
    List (String × ℚ) × List FetchEvent :=
  match REGION_LOCATION_MAP.lookup region with
  | none => ([], [.warnUnknownRegion])
  | some _ => fetchLoop script 3 [] []

/-- Embedding of `get_price` (source lines 170-174).  The two-level dict
`self.price_cache` is abstracted as a total function from region and
instance type to an optional price. -/
def get_price (cache : String → String → Option ℚ) (instance_type region : String) :
    Option ℚ :=
  if instance_type = "" ∨ region = "" then none else cache region instance_type

/-- Python truthiness of an optional price: `None` and `0.0` are falsy. -/
def truthyQ : Option ℚ → Bool
  | none => false
  | some q => !(q == 0)

/-- `round(x, 2)`: round to two decimal places. -/
def roundTo2 (q : ℚ) : ℚ := ((round (q * 100) : ℤ) : ℚ) / 100

/-- Python's substring test `needle in haystack`, on character lists. -/
def listInfix (needle : List Char) : List Char → Bool
  | [] => needle.isEmpty
  | c :: rest => needle.isPrefixOf (c :: rest) || listInfix needle rest

/-- `str.lower()`, modelled as the character-wise ASCII lowercase map. -/
def lowerString (s : String) : String := String.mk (s.data.map Char.toLower)

/-- Source line 216: `platform_details and "windows" in platform_details.lower()`,
as a Boolean (it is only used as a condition). -/
def is_windows_platform (platform_details : String) : Bool :=
  !(platform_details = "") &&
    listInfix "windows".data (lowerString platform_details).data

/-- Source lines 257-259: `self.get_price(g2, region) if g2 else None`
(a candidate string, when present, is never empty, so Python truthiness of
the candidate is exactly presence). -/
def cand_price (cache : String → String → Option ℚ) (region : String) :
    Option String → Option ℚ
  | none => none
  | some t => get_price cache t region

/-- The result dict built by `analyze_instance` (source lines 226-241);
the `%` of the three savings keys is dropped from the field names. -/
structure AnalysisResult where
  InstanceName : String
  InstanceType : String
  Region : String
  x86_OD_Price : Option ℚ
  Graviton_Status : String
  Graviton2 : Option String
  Graviton2_OD_Price : Option ℚ
  Savings_Graviton2 : Option ℚ
  Graviton3 : Option String
  Graviton3_OD_Price : Option ℚ
  Savings_Graviton3 : Option ℚ
  Graviton4 : Option String
  Graviton4_OD_Price : Option ℚ
  Savings_Graviton4 : Option ℚ
deriving DecidableEq

/-- Embedding of `analyze_instance` (source lines 210-283).  `is_gpu`
is computed before the status chain (source line 219), so a type on which
`is_gpu_instance` raises makes the whole function raise (`none`),
whatever the platform.  `if original_price and g2_price` uses Python
float truthiness, so a price of `0.0` behaves like a missing price both
in the savings guards and in the final status test. -/
def analyze_instance (cache : String → String → Option ℚ)
    (instance_name instance_type region platform_details instance_lifecycle : String) :
    Option AnalysisResult :=
  let is_spot := instance_lifecycle = "spot"
  let is_windows := is_windows_platform platform_details
  match is_gpu_instance instance_type with
  | none => none
  | some is_gpu =>
    let is_graviton := is_graviton_instance instance_type
    let original_price := get_price cache instance_type region
    let base : AnalysisResult :=
      { InstanceName := instance_name
        InstanceType := instance_type
        Region := region
        x86_OD_Price := original_price
        Graviton_Status := "未知"
        Graviton2 := none, Graviton2_OD_Price := none, Savings_Graviton2 := none
        Graviton3 := none, Graviton3_OD_Price := none, Savings_Graviton3 := none
        Graviton4 := none, Graviton4_OD_Price := none, Savings_Graviton4 := none }
    if is_windows then some { base with Graviton_Status := "OS不支持" }
    else if is_gpu then some { base with Graviton_Status := "GPU实例不支持" }
    else if is_graviton then some { base with Graviton_Status := "已是Graviton实例" }
    else if is_spot then some { base with Graviton_Status := "Spot实例不参与转换" }
    else
      let gs := match_graviton_instances instance_type
      let g2_price := cand_price cache region gs.1
      let g3_price := cand_price cache region gs.2.1
      let g4_price := cand_price cache region gs.2.2
      let s2 :=
        if truthyQ original_price && truthyQ g2_price then
          some (roundTo2 ((1 - (g2_price.getD 0) / (original_price.getD 0)) * 100))
        else none
      let s3 :=
        if truthyQ original_price && truthyQ g3_price then
          some (roundTo2 ((1 - (g3_price.getD 0) / (original_price.getD 0)) * 100))
        else none
      let s4 :=
        if truthyQ original_price && truthyQ g4_price then
          some (roundTo2 ((1 - (g4_price.getD 0) / (original_price.getD 0)) * 100))
        else none
      some { base with
        Graviton2 := gs.1, Graviton2_OD_Price := g2_price, Savings_Graviton2 := s2
        Graviton3 := gs.2.1, Graviton3_OD_Price := g3_price, Savings_Graviton3 := s3
        Graviton4 := gs.2.2, Graviton4_OD_Price := g4_price, Savings_Graviton4 := s4
        Graviton_Status :=
          if truthyQ g2_price || truthyQ g3_price || truthyQ g4_price then "可以转换"
          else "区域内无对应Graviton实例" }

/-- One row of the `summary` dict of `process_csv` (source lines 340-354). -/
structure SummaryRow where
  InstanceType : String
  Region : String
  Count : Nat
  OD_Price : Option ℚ
  Graviton2 : Option String
  Graviton2_OD_Price : Option ℚ
  Savings_Graviton2 : Option ℚ
  Graviton3 : Option String
  Graviton3_OD_Price : Option ℚ
  Savings_Graviton3 : Option ℚ
  Graviton4 : Option String
  Graviton4_OD_Price : Option ℚ
  Savings_Graviton4 : Option ℚ
deriving DecidableEq

/-- `key = (instance_type, region)` of source line 338 (a result carries
the row's `instance_type` and `region` unchanged). -/
def resultKey (res : AnalysisResult) : String × String := (res.InstanceType, res.Region)

def summaryKey (row : SummaryRow) : String × String := (row.InstanceType, row.Region)

/-- The fresh entry created for an unseen key (source lines 340-354),
with `Count = 0`; the unconditional `summary[key]["Count"] += 1` follows. -/
def seedRow (res : AnalysisResult) : SummaryRow :=
  { InstanceType := res.InstanceType
    Region := res.Region
    Count := 0
    OD_Price := res.x86_OD_Price
    Graviton2 := res.Graviton2
    Graviton2_OD_Price := res.Graviton2_OD_Price
    Savings_Graviton2 := res.Savings_Graviton2
    Graviton3 := res.Graviton3
    Graviton3_OD_Price := res.Graviton3_OD_Price
    Savings_Graviton3 := res.Savings_Graviton3
    Graviton4 := res.Graviton4
    Graviton4_OD_Price := res.Graviton4_OD_Price
    Savings_Graviton4 := res.Savings_Graviton4 }

/-- `summary[key]["Count"] += 1` on the insertion-ordered dict: increment
the entry whose key matches (keys are unique in a dict). -/
def bumpCount : List SummaryRow → String × String → List SummaryRow
  | [], _ => []
  | row :: rest, k =>
    if summaryKey row = k then { row with Count := row.Count + 1 } :: rest
    else row :: bumpCount rest k

/-- `key not in summary` test (source line 339). -/
def containsKey (rows : List SummaryRow) (k : String × String) : Bool :=
  rows.any (fun row => summaryKey row = k)

/-- The body of the summary accumulation for one analysis result
(source lines 337-355). -/
def addResult (rows : List SummaryRow) (res : AnalysisResult) : List SummaryRow :=
  if res.Graviton_Status = "可以转换" then
    bumpCount (if containsKey rows (resultKey res) then rows else rows ++ [seedRow res])
      (resultKey res)
  else rows

/-- The summary built by the record loop of `process_csv`, as a function
of the analysis results, in input order; `list(summary.values())` is the
insertion-ordered row list. -/
def aggregate (results : List AnalysisResult) : List SummaryRow :=
  results.foldl addResult []

/-- The number of convertible results carrying a given key. -/
def convCount (k : String × String) (results : List AnalysisResult) : Nat :=
  (results.filter (fun res => res.Graviton_Status = "可以转换" ∧ resultKey res = k)).length

/-- The aggregation of claim C8, stated from the claim's words: scan in
input order; the first convertible result with a key creates the row
seeded from that result's fields with count 1, and each later convertible
result with the same key only adds 1 to the count, so each emitted row
carries `1 +` the number of later same-key convertible results; rows
appear in first-seen key order. -/
def aggregate_claim : List AnalysisResult → List SummaryRow
  | [] => []
  | res :: rest =>
    if res.Graviton_Status = "可以转换" then
      { seedRow res with Count := 1 + convCount (resultKey res) rest } ::
        aggregate_claim (rest.filter (fun x => resultKey x ≠ resultKey res))
    else aggregate_claim rest
termination_by results => results.length
decreasing_by
  all_goals simp only [List.length_cons]
  · exact Nat.lt_succ_of_le (List.length_filter_le _ _)
  · exact Nat.lt_succ_self _

/-- Concrete cache for the zero-price counterexamples: in `us-east-1`,
`m5.large` costs 1.0 and `m6g.large` is listed at 0.0. -/
def cacheZeroG2 : String → String → Option ℚ := fun region t =>
  if region = "us-east-1" ∧ t = "m5.large" then some 1
  else if region = "us-east-1" ∧ t = "m6g.large" then some 0
  else none

/-- Concrete cache in which `m6g.large` has the nonzero price 0.8 in
`us-east-1` and `m5.large` costs 1.0. -/
def cachePoint8 : String → String → Option ℚ := fun region t =>
  if region = "us-east-1" ∧ t = "m5.large" then some 1
  else if region = "us-east-1" ∧ t = "m6g.large" then some (8/10)
  else none

/-- The observable tail of a region fetch whose last three requests all
fail: three attempts, each logging the error and backing off 2 s, the
third followed by the abandonment log. -/
def errTrace3 : List FetchEvent :=
  [.query, .errorLogged, .sleepMs 2000,
   .query, .errorLogged, .sleepMs 2000,
   .query, .errorLogged, .sleepMs 2000, .abandonLogged]

/-- The events of one successful page that carries a continuation token:
the query and the 0.5 s inter-page pause. -/
def pageTrace : List FetchEvent := [.query, .sleepMs 500]

/-- Folding the extracted items of successive pages into the price dict. -/
def accPages (acc : List (String × ℚ)) (goods : List PageOk) : List (String × ℚ) :=
  goods.foldl (fun m p => insertItems m p.items) acc

/-- The result of analyzing `("i", "m5.large", "us-east-1", "Linux/UNIX", "")`
against `cachePoint8`. -/
def resC3w : AnalysisResult :=
  { InstanceName := "i", InstanceType := "m5.large", Region := "us-east-1",
    x86_OD_Price := some 1, Graviton_Status := "可以转换",
    Graviton2 := some "m6g.large", Graviton2_OD_Price := some (8/10),
    Savings_Graviton2 := some 20,
    Graviton3 := some "m7g.large", Graviton3_OD_Price := none, Savings_Graviton3 := none,
    Graviton4 := some "m8g.large", Graviton4_OD_Price := none, Savings_Graviton4 := none }

/-- The result of analyzing `("i", "m5.large", "us-east-1", "Linux/UNIX", "")`
against `cacheZeroG2`. -/
def resC9w : AnalysisResult :=
  { InstanceName := "i", InstanceType := "m5.large", Region := "us-east-1",
    x86_OD_Price := some 1, Graviton_Status := "区域内无对应Graviton实例",
    Graviton2 := some "m6g.large", Graviton2_OD_Price := some 0, Savings_Graviton2 := none,
    Graviton3 := some "m7g.large", Graviton3_OD_Price := none, Savings_Graviton3 := none,
    Graviton4 := some "m8g.large", Graviton4_OD_Price := none, Savings_Graviton4 := none }

/-- A convertible result equal to `resC3w` except for its region. -/
def resC8b : AnalysisResult := { resC3w with Region := "eu-west-1" }

end GravitonAdvisor



namespace GravitonAdvisor

/-- Claim C1: for every instance type whose family prefix (the letters
before the first digit) is one of p, g, vt, dl, trn, inf, `isGpuInstance`
returns true.  The code takes only the FIRST character of the dot-prefix
and compares it with the family list, so the multi-letter entries of its
own `gpu_instance_families` list are unreachable: `trn1.32xlarge` and
`vt1.3xlarge` are classified as non-GPU, contradicting the claim (and the
list the code itself declares).  The single-letter families and the
`m5.large` / empty cases behave as claimed. -/
theorem C1_gpu_family_first_char_code_bug :
    gpu_instance_families.contains "trn" = true ∧
    is_gpu_instance "trn1.32xlarge" = some false ∧
    gpu_instance_families.contains "vt" = true ∧
    is_gpu_instance "vt1.3xlarge" = some false ∧
    is_gpu_instance "p3.2xlarge" = some true ∧
    is_gpu_instance "m5.large" = some false ∧
    is_gpu_instance "" = some false := by
  decide

/-- Claim C5: a record whose platform text contains "windows"
(case-insensitively) is claimed to get status "OS不支持" ("OS unsupported")
regardless of the instance type.  But `analyze_instance` computes
`is_gpu_instance` before the status chain (source line 219), and for the
instance type `".x"` that helper evaluates `prefix[0]` on an empty slice
and raises `IndexError`: the call returns no result at all (modelled by
`none`), and the exception aborts the whole `process_csv` run. -/
theorem C5_windows_dot_type_code_bug :
    is_windows_platform "Windows Server" = true ∧
    analyze_instance (fun _ _ => none) "i" ".x" "us-east-1" "Windows Server" "" = none := by
  decide

/-- Claim C10: `analyze_instance` is claimed to return, for every record,
a result carrying one of the six final statuses.  For the instance type
`"."` (non-Windows platform) the `is_gpu_instance` helper raises
`IndexError` (empty `prefix[0]` slice), so the function raises instead of
returning any result. -/
theorem C10_status_totality_code_bug :
    analyze_instance (fun _ _ => none) "i" "." "us-east-1" "Linux/UNIX" "" = none := by
  decide

/-- Claim C3 counterexample: with original price 1.0 and candidate
(`m6g.large`) price 0.0 both present in the cache, the claim demands
`Savings_Graviton2 = round((1 - 0.0/1.0) * 100, 2) = 100.0`, but the code's
truthiness guard `if original_price and g2_price` skips the computation
and leaves the savings field absent. -/
theorem C3_zero_price_counterexample :
    (analyze_instance cacheZeroG2 "i" "m5.large" "us-east-1" "Linux/UNIX" "").map
      (fun r => (r.x86_OD_Price, r.Graviton2_OD_Price, r.Savings_Graviton2)) =
      some (some 1, some 0, none) := by
  decide

/-- Claim C4 counterexample: the candidate `m6g.large` has a price in the
cache for the record's region (0.0, i.e. "found"), yet the final status is
"区域内无对应Graviton实例" ("no regional candidate available"), because the
status test `if g2_price or g3_price or g4_price` uses float truthiness. -/
theorem C4_zero_candidate_counterexample :
    get_price cacheZeroG2 "m6g.large" "us-east-1" = some 0 ∧
    (analyze_instance cacheZeroG2 "i" "m5.large" "us-east-1" "Linux/UNIX" "").map
      (fun r => r.Graviton_Status) = some "区域内无对应Graviton实例" := by
  decide

/-- Claim C7: a region with no entry in `REGION_LOCATION_MAP` makes
`fetch_prices_for_region` return an empty mapping immediately; the trace
shows only the warning log — in particular no pricing query is issued,
whatever responses the pricing source would have given. -/
theorem C7_unknown_region_empty (region : String) (script : List PageResponse)
    (h : REGION_LOCATION_MAP.lookup region = none) :
    fetch_prices_for_region region script = ([], [FetchEvent.warnUnknownRegion]) ∧
    FetchEvent.query ∉ (fetch_prices_for_region region script).2 := by
  have hf : fetch_prices_for_region region script = ([], [FetchEvent.warnUnknownRegion]) := by
    simp only [fetch_prices_for_region, h]
  rw [hf]
  exact ⟨rfl, by decide⟩

/-- Witness for C7 at the unknown region `"mars-1"`, with a nonempty
response script available. -/
theorem C7_unknown_region_empty_witness :
    REGION_LOCATION_MAP.lookup "mars-1" = none ∧
    (fetch_prices_for_region "mars-1" [some ⟨[("m5.large", 1)], false⟩] =
        ([], [FetchEvent.warnUnknownRegion]) ∧
      FetchEvent.query ∉ (fetch_prices_for_region "mars-1"
        [some ⟨[("m5.large", 1)], false⟩]).2) :=
  ⟨by decide, C7_unknown_region_empty "mars-1" [some ⟨[("m5.large", 1)], false⟩] (by decide)⟩

end GravitonAdvisor

namespace GravitonAdvisor

/-- Consuming a run of successful pages that all carry a continuation
token leaves the loop at the rest of the script with the retry counter
still at 3, the items accumulated, and one query + 0.5 s pause traced per
page. -/
theorem fetchLoop_goods (goods : List PageOk) (h : ∀ p ∈ goods, p.hasNext = true)
    (bad : List PageResponse) (acc : List (String × ℚ)) (tr : List FetchEvent) :
    fetchLoop (goods.map some ++ bad) 3 acc tr =
      fetchLoop bad 3 (accPages acc goods) (tr ++ (goods.map fun _ => pageTrace).flatten) := by
  induction goods generalizing acc tr with
  | nil => simp [accPages]
  | cons p ps ih =>
    have hp : p.hasNext = true := h p (by simp)
    have hrec : ∀ q ∈ ps, q.hasNext = true := fun q hq => h q (by simp [hq])
    simp only [List.map_cons, List.cons_append, fetchLoop, hp, if_true, List.append_eq]
    rw [ih hrec]
    simp [accPages, pageTrace]

/-- Three consecutive failing requests exhaust the retry budget of 3:
each failure logs the error and sleeps 2 s, the third also logs the
abandonment and breaks, returning the accumulated mapping; any responses
after the third failure are never requested. -/
theorem fetchLoop_three_errors (tail : List PageResponse) (acc : List (String × ℚ))
    (tr : List FetchEvent) :
    fetchLoop (none :: none :: none :: tail) 3 acc tr = (acc, tr ++ errTrace3) := by
  simp [fetchLoop, errTrace3]

end GravitonAdvisor

namespace GravitonAdvisor

/-- Claim C6: for a known region whose page fetches keep failing — any
run of successful pages (each carrying a continuation token) followed by
nothing but failures — the fetcher makes exactly 3 failing attempts, each
logging the error and backing off a fixed 2 seconds (see `errTrace3`),
then logs abandonment and RETURNS the mapping accumulated from the pages
fetched before the failures (possibly empty), rather than raising: the
responses after the third failure (`tail`) are never requested, and the
function yields a value for every script, so the overall run completes. -/
theorem C6_retry_exhaustion_partial_map (region : String)
    (hreg : (REGION_LOCATION_MAP.lookup region).isSome = true)
    (goods : List PageOk) (hnext : ∀ p ∈ goods, p.hasNext = true)
    (tail : List PageResponse) :
    fetch_prices_for_region region (goods.map some ++ [none, none, none] ++ tail) =
      (accPages [] goods, (goods.map fun _ => pageTrace).flatten ++ errTrace3) := by
  obtain ⟨loc, hloc⟩ := Option.isSome_iff_exists.mp hreg
  unfold fetch_prices_for_region
  rw [hloc]
  rw [List.append_assoc, fetchLoop_goods goods hnext _ [] []]
  rw [show ([none, none, none] ++ tail : List PageResponse) =
    none :: none :: none :: tail from rfl]
  rw [fetchLoop_three_errors]
  simp

/-- Witness for C6: in `us-east-1`, one successful page listing
`m5.large` at price 1 is followed by three failures; the fetch returns
the one-entry partial map with the claimed trace, never touching the
response scripted after the abandonment. -/
theorem C6_retry_exhaustion_partial_map_witness :
    (REGION_LOCATION_MAP.lookup "us-east-1").isSome = true ∧
    (∀ p ∈ [PageOk.mk [("m5.large", 1)] true], p.hasNext = true) ∧
    fetch_prices_for_region "us-east-1"
        ([PageOk.mk [("m5.large", 1)] true].map some ++ [none, none, none] ++
          [some (PageOk.mk [("zzz", 2)] false)]) =
      (accPages [] [PageOk.mk [("m5.large", 1)] true],
       ([PageOk.mk [("m5.large", 1)] true].map fun _ => pageTrace).flatten ++ errTrace3) :=
  ⟨by decide, by decide,
    C6_retry_exhaustion_partial_map "us-east-1" (by decide)
      [PageOk.mk [("m5.large", 1)] true] (by decide)
      [some (PageOk.mk [("zzz", 2)] false)]⟩

end GravitonAdvisor

namespace GravitonAdvisor

/-- Python truthiness of an optional price holds exactly for a present
nonzero price. -/
theorem truthyQ_eq_true {o : Option ℚ} : truthyQ o = true ↔ ∃ q, o = some q ∧ q ≠ 0 := by
  cases o with
  | none => simp [truthyQ]
  | some q => simp [truthyQ]

/-- Claim C9: in `analyze_instance` a price equal to 0.0 behaves exactly
like a missing price.  A zero original price, or a zero price of the
respective candidate, makes that savings field absent (the division of
the savings formula is guarded and never evaluated with a zero or absent
denominator), and the status "可以转换" ("convertible") is reached only
when some candidate's price is present AND nonzero. -/
theorem C9_zero_price_as_missing (cache : String → String → Option ℚ)
    (n t r p l : String) (res : AnalysisResult)
    (h : analyze_instance cache n t r p l = some res) :
    (res.x86_OD_Price = some 0 →
      res.Savings_Graviton2 = none ∧ res.Savings_Graviton3 = none ∧
        res.Savings_Graviton4 = none) ∧
    (res.Graviton2_OD_Price = some 0 → res.Savings_Graviton2 = none) ∧
    (res.Graviton3_OD_Price = some 0 → res.Savings_Graviton3 = none) ∧
    (res.Graviton4_OD_Price = some 0 → res.Savings_Graviton4 = none) ∧
    (res.Graviton_Status = "可以转换" →
      ∃ q : ℚ, q ≠ 0 ∧ (res.Graviton2_OD_Price = some q ∨
        res.Graviton3_OD_Price = some q ∨ res.Graviton4_OD_Price = some q)) := by
  cases hgpu : is_gpu_instance t with
  | none => simp [analyze_instance, hgpu] at h
  | some b =>
    cases b with
    | true =>
      by_cases hw : is_windows_platform p = true
      · simp [analyze_instance, hgpu, hw] at h
        subst h
        simp
      · simp [analyze_instance, hgpu, hw] at h
        subst h
        simp
    | false =>
      by_cases hw : is_windows_platform p = true
      · simp [analyze_instance, hgpu, hw] at h
        subst h
        simp
      · by_cases hv : is_graviton_instance t = true
        · simp [analyze_instance, hgpu, hw, hv] at h
          subst h
          simp
        · by_cases hs : l = "spot"
          · simp [analyze_instance, hgpu, hw, hv, hs] at h
            subst h
            simp
          · simp [analyze_instance, hgpu, hw, hv, hs] at h
            subst h
            refine ⟨fun h0 => ?_, fun h2 => ?_, fun h3 => ?_, fun h4 => ?_, fun hst => ?_⟩
            · simp only at h0
              simp [h0, truthyQ]
            · simp only at h2
              simp [h2, truthyQ]
            · simp only at h3
              simp [h3, truthyQ]
            · simp only at h4
              simp [h4, truthyQ]
            · by_cases hc : (truthyQ (cand_price cache r (match_graviton_instances t).1) = true ∨
                    truthyQ (cand_price cache r (match_graviton_instances t).2.1) = true) ∨
                  truthyQ (cand_price cache r (match_graviton_instances t).2.2) = true
              · rcases hc with (hc2 | hc3) | hc4
                · obtain ⟨q, hq, hne⟩ := truthyQ_eq_true.mp hc2
                  exact ⟨q, hne, by simp [hq]⟩
                · obtain ⟨q, hq, hne⟩ := truthyQ_eq_true.mp hc3
                  exact ⟨q, hne, by simp [hq]⟩
                · obtain ⟨q, hq, hne⟩ := truthyQ_eq_true.mp hc4
                  exact ⟨q, hne, by simp [hq]⟩
              · simp only at hst
                rw [if_neg hc] at hst
                exact absurd hst (by decide)

end GravitonAdvisor

namespace GravitonAdvisor

/-- Claim C3 (amended): in every result returned by `analyze_instance`,
whenever the original price and a candidate's price are both present and
nonzero, that candidate's savings field equals
`round((1 - candidatePrice/originalPrice) * 100, 2)`; whenever the
original price or that candidate's price is absent — or zero, which
Python's truthiness guard treats identically — the savings field is
absent, not zero. -/
theorem C3_savings_formula_amended (cache : String → String → Option ℚ)
    (n t r p l : String) (res : AnalysisResult)
    (h : analyze_instance cache n t r p l = some res) :
    (∀ o c : ℚ, res.x86_OD_Price = some o → res.Graviton2_OD_Price = some c →
      o ≠ 0 → c ≠ 0 → res.Savings_Graviton2 = some (roundTo2 ((1 - c / o) * 100))) ∧
    (∀ o c : ℚ, res.x86_OD_Price = some o → res.Graviton3_OD_Price = some c →
      o ≠ 0 → c ≠ 0 → res.Savings_Graviton3 = some (roundTo2 ((1 - c / o) * 100))) ∧
    (∀ o c : ℚ, res.x86_OD_Price = some o → res.Graviton4_OD_Price = some c →
      o ≠ 0 → c ≠ 0 → res.Savings_Graviton4 = some (roundTo2 ((1 - c / o) * 100))) ∧
    ((res.x86_OD_Price = none ∨ res.x86_OD_Price = some 0 ∨
        res.Graviton2_OD_Price = none ∨ res.Graviton2_OD_Price = some 0) →
      res.Savings_Graviton2 = none) ∧
    ((res.x86_OD_Price = none ∨ res.x86_OD_Price = some 0 ∨
        res.Graviton3_OD_Price = none ∨ res.Graviton3_OD_Price = some 0) →
      res.Savings_Graviton3 = none) ∧
    ((res.x86_OD_Price = none ∨ res.x86_OD_Price = some 0 ∨
        res.Graviton4_OD_Price = none ∨ res.Graviton4_OD_Price = some 0) →
      res.Savings_Graviton4 = none) := by
  cases hgpu : is_gpu_instance t with
  | none => simp [analyze_instance, hgpu] at h
  | some b =>
    cases b with
    | true =>
      by_cases hw : is_windows_platform p = true
      · simp [analyze_instance, hgpu, hw] at h
        subst h
        simp
      · simp [analyze_instance, hgpu, hw] at h
        subst h
        simp
    | false =>
      by_cases hw : is_windows_platform p = true
      · simp [analyze_instance, hgpu, hw] at h
        subst h
        simp
      · by_cases hv : is_graviton_instance t = true
        · simp [analyze_instance, hgpu, hw, hv] at h
          subst h
          simp
        · by_cases hs : l = "spot"
          · simp [analyze_instance, hgpu, hw, hv, hs] at h
            subst h
            simp
          · simp [analyze_instance, hgpu, hw, hv, hs] at h
            subst h
            refine ⟨fun o c ho hc hno hnc => ?_, fun o c ho hc hno hnc => ?_,
              fun o c ho hc hno hnc => ?_, fun hd => ?_, fun hd => ?_, fun hd => ?_⟩
            · simp only at ho hc
              simp [ho, hc, truthyQ, hno, hnc]
            · simp only at ho hc
              simp [ho, hc, truthyQ, hno, hnc]
            · simp only at ho hc
              simp [ho, hc, truthyQ, hno, hnc]
            · rcases hd with h1 | h1 | h1 | h1 <;>
                (simp only at h1; simp [h1, truthyQ])
            · rcases hd with h1 | h1 | h1 | h1 <;>
                (simp only at h1; simp [h1, truthyQ])
            · rcases hd with h1 | h1 | h1 | h1 <;>
                (simp only at h1; simp [h1, truthyQ])

end GravitonAdvisor

namespace GravitonAdvisor

/-- Witness for C9 at a concrete record and cache: the candidate
`m6g.large` is cached at 0.0, and the savings field is absent. -/
theorem C9_zero_price_as_missing_witness :
    analyze_instance cacheZeroG2 "i" "m5.large" "us-east-1" "Linux/UNIX" "" = some resC9w ∧
    (resC9w.Graviton2_OD_Price = some 0 → resC9w.Savings_Graviton2 = none) :=
  ⟨by decide,
    (C9_zero_price_as_missing cacheZeroG2 "i" "m5.large" "us-east-1" "Linux/UNIX" ""
      resC9w (by decide)).2.1⟩

/-- Witness for the amended C3 at a concrete record and cache: original
price 1.0, candidate price 0.8, savings 20.00 by the formula. -/
theorem C3_savings_formula_amended_witness :
    analyze_instance cachePoint8 "i" "m5.large" "us-east-1" "Linux/UNIX" "" = some resC3w ∧
    resC3w.x86_OD_Price = some 1 ∧ resC3w.Graviton2_OD_Price = some (8/10) ∧
    (1 : ℚ) ≠ 0 ∧ (8/10 : ℚ) ≠ 0 ∧
    resC3w.Savings_Graviton2 = some (roundTo2 ((1 - (8/10 : ℚ) / 1) * 100)) := by
  have hA : analyze_instance cachePoint8 "i" "m5.large" "us-east-1" "Linux/UNIX" "" =
      some resC3w := by
    simp +decide [analyze_instance, is_windows_platform, lowerString, listInfix, cachePoint8,
      get_price, cand_price, truthyQ, roundTo2, match_graviton_instances, parseInstanceType,
      is_gpu_instance, is_graviton_instance, gpu_instance_families, resC3w]
    norm_num [round_eq]
  refine ⟨hA, rfl, rfl, by norm_num, by norm_num, ?_⟩
  exact (C3_savings_formula_amended cachePoint8 "i" "m5.large" "us-east-1" "Linux/UNIX" ""
    resC3w hA).1 1 (8/10) rfl rfl (by norm_num) (by norm_num)

end GravitonAdvisor

namespace GravitonAdvisor

/-- Claim C4 (amended): for every record that reaches decision step 5
(platform not Windows, GPU check computed and false, not already
Graviton, lifecycle not "spot"), `analyze_instance` returns a result, and
its status is "可以转换" ("convertible") exactly when at least one mapped
candidate's price is present AND nonzero in the cache for the record's
region, and "区域内无对应Graviton实例" ("no regional candidate
available") otherwise; each of these two strings differs from the four
short-circuit statuses and from the other, so with the single status
field the six outcomes are mutually exclusive. -/
theorem C4_final_status_amended (cache : String → String → Option ℚ)
    (n t r p l : String)
    (hw : is_windows_platform p = false)
    (hg : is_gpu_instance t = some false)
    (hv : is_graviton_instance t = false)
    (hs : l ≠ "spot") :
    (analyze_instance cache n t r p l).map AnalysisResult.Graviton_Status =
      some (if truthyQ (cand_price cache r (match_graviton_instances t).1)
            || truthyQ (cand_price cache r (match_graviton_instances t).2.1)
            || truthyQ (cand_price cache r (match_graviton_instances t).2.2)
        then "可以转换" else "区域内无对应Graviton实例") ∧
    ("可以转换" : String) ∉
      ["OS不支持", "GPU实例不支持", "已是Graviton实例", "Spot实例不参与转换"] ∧
    ("区域内无对应Graviton实例" : String) ∉
      ["OS不支持", "GPU实例不支持", "已是Graviton实例", "Spot实例不参与转换"] ∧
    ("可以转换" : String) ≠ "区域内无对应Graviton实例" := by
  refine ⟨?_, by decide, by decide, by decide⟩
  simp [analyze_instance, hg, hw, hv, hs]

end GravitonAdvisor

namespace GravitonAdvisor

/-- Witness for the amended C4: `m5.large` in `us-east-1` with candidate
`m6g.large` cached at the nonzero price 0.8 gets status "可以转换". -/
theorem C4_final_status_amended_witness :
    is_windows_platform "Linux/UNIX" = false ∧
    is_gpu_instance "m5.large" = some false ∧
    is_graviton_instance "m5.large" = false ∧
    ("" : String) ≠ "spot" ∧
    ((analyze_instance cachePoint8 "i" "m5.large" "us-east-1" "Linux/UNIX" "").map
        AnalysisResult.Graviton_Status =
      some (if truthyQ (cand_price cachePoint8 "us-east-1" (match_graviton_instances "m5.large").1)
            || truthyQ (cand_price cachePoint8 "us-east-1" (match_graviton_instances "m5.large").2.1)
            || truthyQ (cand_price cachePoint8 "us-east-1" (match_graviton_instances "m5.large").2.2)
        then "可以转换" else "区域内无对应Graviton实例") ∧
      ("可以转换" : String) ∉
        ["OS不支持", "GPU实例不支持", "已是Graviton实例", "Spot实例不参与转换"] ∧
      ("区域内无对应Graviton实例" : String) ∉
        ["OS不支持", "GPU实例不支持", "已是Graviton实例", "Spot实例不参与转换"] ∧
      ("可以转换" : String) ≠ "区域内无对应Graviton实例") :=
  ⟨by decide, by decide, by decide, by decide,
    C4_final_status_amended cachePoint8 "i" "m5.large" "us-east-1" "Linux/UNIX" ""
      (by decide) (by decide) (by decide) (by decide)⟩

end GravitonAdvisor

namespace GravitonAdvisor

/-- An ASCII lowercase letter is not an ASCII digit. -/
theorem lower_not_digit {c : Char} (h : c.isLower = true) : c.isDigit = false := by
  simp only [Char.isLower, Bool.and_eq_true, decide_eq_true_eq] at h
  simp only [Char.isDigit, Bool.and_eq_false_iff, decide_eq_false_iff_not]
  right
  intro hle
  have h1 : (97 : UInt32).toBitVec.toNat ≤ c.val.toBitVec.toNat := BitVec.le_def.mp h.1
  have h2 : c.val.toBitVec.toNat ≤ (57 : UInt32).toBitVec.toNat := BitVec.le_def.mp hle
  have h3 := le_trans h1 h2
  simp at h3

/-- An ASCII lowercase letter is not the dot character. -/
theorem lower_ne_dot {c : Char} (h : c.isLower = true) : c ≠ '.' := by
  intro hEq
  subst hEq
  exact absurd h (by decide)

/-- A nonempty `takeWhile` exposes the head of the list and the predicate
holding on it. -/
theorem takeWhile_head {p : Char → Bool} {l l2 : List Char} {a : Char}
    (h : l.takeWhile p = a :: l2) : ∃ tl, l = a :: tl ∧ p a = true := by
  cases l with
  | nil => simp at h
  | cons b bs =>
    rw [List.takeWhile_cons] at h
    by_cases hb : p b = true
    · rw [if_pos hb] at h
      injection h with h1 _
      exact ⟨bs, by rw [h1], h1 ▸ hb⟩
    · rw [if_neg hb] at h
      simp at h

/-- A successfully parsed instance type starts with a lowercase letter
followed by a digit. -/
theorem parse_shape {s : String} {f : Char} {gen suf size : List Char}
    (h : parseInstanceType s = some (f, gen, suf, size)) :
    f.isLower = true ∧ ∃ d rest, s.data = f :: d :: rest ∧ d.isDigit = true := by
  unfold parseInstanceType at h
  cases hd : s.data with
  | nil => rw [hd] at h; simp at h
  | cons c cs =>
    rw [hd] at h
    simp only at h
    split at h
    · rename_i hcond
      injection h with h1
      obtain ⟨hcf, hgen, _⟩ := hcond
      have hcfEq : c = f := congrArg (fun q => q.1) h1
      subst hcfEq
      refine ⟨hcf, ?_⟩
      cases hgenEq : cs.takeWhile Char.isDigit with
      | nil => exact absurd hgenEq hgen
      | cons d ds =>
        obtain ⟨tl, hcs, hdig⟩ := takeWhile_head hgenEq
        exact ⟨d, tl, by rw [hcs], hdig⟩
    · simp at h

/-- On a string starting with a lowercase letter, the code's GPU check
returns the membership test of the one-character family string. -/
theorem is_gpu_of_head_lower {s : String} {f : Char} {rest : List Char}
    (hd : s.data = f :: rest) (hf : f.isLower = true) :
    is_gpu_instance s = some (gpu_instance_families.contains (String.mk [f])) := by
  unfold is_gpu_instance
  have hne : (f ≠ '.') = True := by simp [lower_ne_dot hf]
  simp [hd, List.takeWhile_cons, hne]

/-- On a parsable instance type, the spec's GPU classifier also tests the
one-character family string: the letters before the first digit are
exactly the leading family letter. -/
theorem spec_gpu_of_parse {s : String} {f d : Char} {rest : List Char}
    (hd : s.data = f :: d :: rest) (hf : f.isLower = true) (hdig : d.isDigit = true) :
    isGpuInstance_spec s = gpu_instance_families.contains (String.mk [f]) := by
  unfold isGpuInstance_spec
  simp [hd, List.takeWhile_cons, lower_not_digit hf, hdig]

/-- Membership of a one-character family string in the GPU family list
reduces to the letter being `p` or `g`: the multi-letter entries can never
equal a one-character string. -/
theorem contains_single (f : Char) :
    gpu_instance_families.contains (String.mk [f]) = (f == 'p' || f == 'g') := by
  by_cases hp : f = 'p'
  · subst hp; decide
  · by_cases hg : f = 'g'
    · subst hg; decide
    · have e : gpu_instance_families.contains (String.mk [f]) = false := by
        simp only [gpu_instance_families, List.contains_cons, List.contains_nil, Bool.or_false,
          Bool.or_eq_false_iff, beq_eq_false_iff_ne, ne_eq]
        refine ⟨?_, ?_, ?_, ?_, ?_, ?_⟩ <;> intro hEq <;>
          (first
            | exact hp (by have h2 := congrArg String.data hEq; simpa using h2)
            | exact hg (by have h2 := congrArg String.data hEq; simpa using h2)
            | (have h2 := congrArg String.data hEq; simp at h2))
      rw [e]
      simp [hp, hg]

end GravitonAdvisor

namespace GravitonAdvisor

/-- Claim C2: `match_graviton_instances` equals the rule table stated in
the claim.  Every type parsing as family letter, digits, optional letter
suffix, dot, size is mapped by family (`t` → `t4g.<size>`; `c`/`m` →
6g/7g/8g; `r` → 6g/7g only; `x` → `x2g.<size>`; default → 6g only), and
every unparsable, GPU-classified or already-migrated type gets all three
candidates absent.  On parsable types the code's first-character GPU test
and the spec's letters-before-first-digit GPU test coincide (the family
is a single letter), so the claimed table holds for either reading. -/
theorem C2_mapCandidates_matches_rule_table (t : String) :
    match_graviton_instances t = mapCandidates_claim t := by
  cases hp : parseInstanceType t with
  | none => simp [match_graviton_instances, mapCandidates_claim, hp]
  | some q =>
    obtain ⟨f, gen, suf, size⟩ := q
    obtain ⟨hf, d, rest, hd, hdig⟩ := parse_shape hp
    have hcode : is_gpu_instance t = some (f == 'p' || f == 'g') := by
      rw [is_gpu_of_head_lower hd hf, contains_single]
    have hspec : isGpuInstance_spec t = (f == 'p' || f == 'g') := by
      rw [spec_gpu_of_parse hd hf hdig, contains_single]
    simp only [match_graviton_instances, mapCandidates_claim, hp, hcode, hspec,
      Option.getD_some]
    by_cases hgpu : (f == 'p' || f == 'g') = true
    · simp [hgpu]
    · by_cases hgr : is_graviton_instance t = true
      · simp [hgr]
      · simp only [Bool.not_eq_true] at hgpu hgr
        simp only [hgpu, hgr, Bool.or_self, Bool.or_false, Bool.false_eq_true, if_false]
        by_cases ht : f = 't'
        · subst ht; simp
        · by_cases hc : f = 'c'
          · subst hc; simp
          · by_cases hm : f = 'm'
            · subst hm; simp
            · by_cases hr : f = 'r'
              · subst hr; simp
              · by_cases hx : f = 'x'
                · subst hx; simp [ht, hc, hm, hr]
                · simp [ht, hc, hm, hr, hx]

end GravitonAdvisor

namespace GravitonAdvisor

/-- The seeded summary row carries the result's key. -/
theorem summaryKey_seedRow (res : AnalysisResult) :
    summaryKey (seedRow res) = resultKey res := rfl

/-- Incrementing a count does not change a row's key. -/
theorem summaryKey_bump (row : SummaryRow) :
    summaryKey { row with Count := row.Count + 1 } = summaryKey row := rfl

/-- `containsKey` is membership of the key among the rows' keys. -/
theorem containsKey_iff (rows : List SummaryRow) (k : String × String) :
    containsKey rows k = true ↔ k ∈ rows.map summaryKey := by
  simp only [containsKey, List.any_eq_true, decide_eq_true_eq, List.mem_map]

/-- On rows with pairwise distinct keys, bumping the count at a key is a
pointwise map. -/
theorem bumpCount_eq_map {rows : List SummaryRow} (k : String × String)
    (h : (rows.map summaryKey).Nodup) :
    bumpCount rows k = rows.map
      (fun row => if summaryKey row = k then { row with Count := row.Count + 1 } else row) := by
  induction rows with
  | nil => rfl
  | cons row rest ih =>
    simp only [List.map_cons, List.nodup_cons] at h ⊢
    simp only [bumpCount]
    by_cases hk : summaryKey row = k
    · rw [if_pos hk, if_pos hk]
      have hnm : ∀ x ∈ rest, ¬summaryKey x = k := by
        intro x hx hEq
        exact h.1 (by rw [hk, ← hEq]; exact List.mem_map_of_mem summaryKey hx)
      have : rest.map (fun row => if summaryKey row = k then
          { row with Count := row.Count + 1 } else row) = rest.map id := by
        apply List.map_congr_left
        intro x hx
        rw [if_neg (hnm x hx)]
        rfl
      rw [this, List.map_id]
    · rw [if_neg hk, if_neg hk, ih h.2]

/-- Bumping a key that lives only in the appended last row bumps that
row and leaves the rest untouched. -/
theorem bumpCount_append_last {rows : List SummaryRow} {k : String × String}
    {row0 : SummaryRow} (h : k ∉ rows.map summaryKey) (h0 : summaryKey row0 = k) :
    bumpCount (rows ++ [row0]) k = rows ++ [{ row0 with Count := row0.Count + 1 }] := by
  induction rows with
  | nil => simp [bumpCount, h0]
  | cons row rest ih =>
    simp only [List.map_cons, List.mem_cons, not_or] at h
    simp only [List.cons_append, bumpCount, if_neg (Ne.symm h.1), List.append_eq]
    rw [ih h.2]

/-- One step of `convCount`. -/
theorem convCount_cons (k : String × String) (res : AnalysisResult)
    (rest : List AnalysisResult) :
    convCount k (res :: rest) =
      (if res.Graviton_Status = "可以转换" ∧ resultKey res = k then 1 else 0) +
        convCount k rest := by
  by_cases hc : res.Graviton_Status = "可以转换" ∧ resultKey res = k
  · simp only [convCount, List.filter_cons, decide_eq_true_eq, if_pos hc, List.length_cons]
    omega
  · simp only [convCount, List.filter_cons, decide_eq_true_eq, if_neg hc]
    simp

/-- Filtering with a predicate that keeps every result carrying key `k`
does not change the number of convertible results with key `k`. -/
theorem convCount_filter (k : String × String) (p : AnalysisResult → Bool)
    (l : List AnalysisResult) (hp : ∀ x, resultKey x = k → p x = true) :
    convCount k (l.filter p) = convCount k l := by
  induction l with
  | nil => rfl
  | cons res rest ih =>
    rw [List.filter_cons]
    by_cases hres : p res = true
    · rw [if_pos hres, convCount_cons, convCount_cons, ih]
    · rw [if_neg hres, convCount_cons, ih]
      have : ¬(res.Graviton_Status = "可以转换" ∧ resultKey res = k) := by
        rintro ⟨_, hk⟩
        exact hres (hp res hk)
      rw [if_neg this, Nat.zero_add]

end GravitonAdvisor

namespace GravitonAdvisor

/-- Bumping the count at a key preserves the list of row keys. -/
theorem keys_map_bumpSel (rows : List SummaryRow) (k : String × String) :
    (rows.map (fun row =>
      if summaryKey row = k then { row with Count := row.Count + 1 } else row)).map
        summaryKey = rows.map summaryKey := by
  rw [List.map_map]
  apply List.map_congr_left
  intro x _
  show summaryKey (if summaryKey x = k then { x with Count := x.Count + 1 } else x) =
    summaryKey x
  by_cases hk : summaryKey x = k
  · rw [if_pos hk]
    rfl
  · rw [if_neg hk]

/-- Two updates of the same row agreeing on the count are equal. -/
theorem countEq {row : SummaryRow} {a b : Nat} (h : a = b) :
    ({ row with Count := a } : SummaryRow) = { row with Count := b } := by rw [h]

/-- The summary fold of `process_csv`, started from any rows with
pairwise distinct keys, bumps each existing row by the number of later
convertible results with its key and appends the claim-side aggregation
of the results whose keys are new. -/
theorem foldl_addResult_eq (rs : List AnalysisResult) :
    ∀ rows : List SummaryRow, (rows.map summaryKey).Nodup →
      rs.foldl addResult rows =
        rows.map (fun row =>
          { row with Count := row.Count + convCount (summaryKey row) rs }) ++
          aggregate_claim (rs.filter (fun x =>
            decide (resultKey x ∉ rows.map summaryKey))) := by
  induction rs with
  | nil =>
    intro rows _
    simp only [List.foldl_nil, List.filter_nil]
    have hmap : rows.map (fun row =>
        { row with Count := row.Count + convCount (summaryKey row) [] }) = rows := by
      have hpoint : ∀ row : SummaryRow,
          { row with Count := row.Count + convCount (summaryKey row) [] } = row := by
        intro row
        cases row
        simp [convCount]
      calc rows.map (fun row =>
            { row with Count := row.Count + convCount (summaryKey row) [] })
          = rows.map id := List.map_congr_left (fun x _ => hpoint x)
        _ = rows := List.map_id rows
    rw [hmap]
    simp [aggregate_claim]
  | cons res rest ih =>
    intro rows hnd
    rw [List.foldl_cons]
    by_cases hconv : res.Graviton_Status = "可以转换"
    · by_cases hmem : resultKey res ∈ rows.map summaryKey
      · have hck : containsKey rows (resultKey res) = true := (containsKey_iff rows _).mpr hmem
        have haddr : addResult rows res = bumpCount rows (resultKey res) := by
          simp only [addResult, if_pos hconv, hck, if_true]
        rw [haddr, bumpCount_eq_map _ hnd]
        have hkeys := keys_map_bumpSel rows (resultKey res)
        have hnd2 : ((rows.map fun row => if summaryKey row = resultKey res then
            { row with Count := row.Count + 1 } else row).map summaryKey).Nodup := by
          rw [hkeys]; exact hnd
        rw [ih _ hnd2, hkeys]
        congr 1
        · rw [List.map_map]
          apply List.map_congr_left
          intro row hrow
          by_cases hk : summaryKey row = resultKey res
          · show (fun row => { row with Count := row.Count + convCount (summaryKey row) rest })
                (if summaryKey row = resultKey res then
                  { row with Count := row.Count + 1 } else row) =
              { row with Count := row.Count + convCount (summaryKey row) (res :: rest) }
            rw [if_pos hk]
            show ({ row with Count := (row.Count + 1) + convCount (summaryKey row) rest }
                : SummaryRow) =
              { row with Count := row.Count + convCount (summaryKey row) (res :: rest) }
            apply countEq
            rw [convCount_cons, if_pos ⟨hconv, hk.symm⟩]
            omega
          · show (fun row => { row with Count := row.Count + convCount (summaryKey row) rest })
                (if summaryKey row = resultKey res then
                  { row with Count := row.Count + 1 } else row) =
              { row with Count := row.Count + convCount (summaryKey row) (res :: rest) }
            rw [if_neg hk]
            apply countEq
            rw [convCount_cons, if_neg (fun hc => hk hc.2.symm), Nat.zero_add]
        · rw [List.filter_cons, if_neg (by simp [hmem])]
      · have hck : containsKey rows (resultKey res) = false := by
          rw [Bool.eq_false_iff]
          exact fun habs => hmem ((containsKey_iff _ _).mp habs)
        have haddr : addResult rows res =
            bumpCount (rows ++ [seedRow res]) (resultKey res) := by
          simp only [addResult, if_pos hconv, hck, Bool.false_eq_true, if_false]
        rw [haddr, bumpCount_append_last hmem (summaryKey_seedRow res)]
        have hkeys : ((rows ++ [{ seedRow res with Count := (seedRow res).Count + 1 }]).map
            summaryKey) = rows.map summaryKey ++ [resultKey res] := by
          rw [List.map_append]
          rfl
        have hnd2 : (((rows ++ [{ seedRow res with Count := (seedRow res).Count + 1 }]).map
            summaryKey)).Nodup := by
          rw [hkeys]
          refine List.nodup_append.mpr ⟨hnd, List.nodup_singleton _, ?_⟩
          intro a ha hb
          rw [List.mem_singleton] at hb
          exact hmem (hb ▸ ha)
        rw [ih _ hnd2, hkeys]
        rw [List.filter_cons, if_pos (by simp [hmem])]
        have hclaim : aggregate_claim (res :: rest.filter (fun x =>
              decide (resultKey x ∉ rows.map summaryKey))) =
            { seedRow res with Count := (1 + convCount (resultKey res)
                (rest.filter (fun x => decide (resultKey x ∉ rows.map summaryKey)))) } ::
              aggregate_claim ((rest.filter (fun x =>
                decide (resultKey x ∉ rows.map summaryKey))).filter
                  (fun x => decide (resultKey x ≠ resultKey res))) := by
          simp [aggregate_claim, hconv]
        rw [hclaim, List.map_append]
        simp only [List.map_cons, List.map_nil]
        rw [List.append_assoc]
        congr 1
        · apply List.map_congr_left
          intro row hrow
          apply countEq
          have hkk : ¬(res.Graviton_Status = "可以转换" ∧ resultKey res = summaryKey row) :=
            fun hc => hmem (hc.2 ▸ List.mem_map_of_mem summaryKey hrow)
          rw [convCount_cons, if_neg hkk, Nat.zero_add]
        · rw [List.singleton_append]
          congr 1
          · show ({ seedRow res with Count :=
                (((seedRow res).Count + 1) + convCount (resultKey res) rest) } : SummaryRow) =
              { seedRow res with Count := (1 + convCount (resultKey res)
                (rest.filter (fun x => decide (resultKey x ∉ rows.map summaryKey)))) }
            apply countEq
            rw [convCount_filter (resultKey res) _ rest (fun x hx => by simp [hx, hmem])]
            show (0 + 1) + convCount (resultKey res) rest =
              1 + convCount (resultKey res) rest
            omega
          · congr 1
            rw [List.filter_filter]
            apply List.filter_congr
            intro x hx
            by_cases h1 : resultKey x ∈ rows.map summaryKey <;>
              by_cases h2 : resultKey x = resultKey res <;>
                simp [h1, h2]
    · have haddr : addResult rows res = rows := by rw [addResult, if_neg hconv]
      rw [haddr, ih rows hnd]
      have hcc : ∀ row : SummaryRow,
          ({ row with Count := row.Count + convCount (summaryKey row) rest }
            : SummaryRow) =
          { row with Count := row.Count + convCount (summaryKey row) (res :: rest) } := by
        intro row
        rw [convCount_cons, if_neg (fun hc => hconv hc.1), Nat.zero_add]
      rw [List.filter_cons]
      by_cases hin : resultKey res ∈ rows.map summaryKey
      · rw [if_neg (by simp [hin])]
        congr 1
        exact List.map_congr_left (fun x _ => hcc x)
      · rw [if_pos (by simp [hin])]
        have hdrop : aggregate_claim (res :: rest.filter (fun x =>
            decide (resultKey x ∉ rows.map summaryKey))) =
            aggregate_claim (rest.filter (fun x =>
              decide (resultKey x ∉ rows.map summaryKey))) := by
          simp [aggregate_claim, hconv]
        rw [hdrop]
        congr 1
        exact List.map_congr_left (fun x _ => hcc x)

end GravitonAdvisor

namespace GravitonAdvisor

/-- Claim C8: the summary aggregation of `process_csv` equals the
claim's description `aggregate_claim` on every sequence of analysis
results: scanning in input order, each result with status "可以转换"
("convertible") is keyed by (instance type, region); the first result for
a key creates a row seeded from that result's fields whose final count is
1 plus the number of later convertible results with the same key (i.e.
later occurrences only increment the count, all other fields frozen), and
rows are emitted in first-seen key order.  Concretely, two convertible
records sharing (type, region) yield one row with count 2, and a third
with a different region yields a second, separate row. -/
theorem C8_aggregation_first_seen (results : List AnalysisResult) :
    aggregate results = aggregate_claim results ∧
    (aggregate [resC3w, resC3w, resC8b]).map
        (fun row => (row.InstanceType, row.Region, row.Count)) =
      [("m5.large", "us-east-1", 2), ("m5.large", "eu-west-1", 1)] := by
  constructor
  · rw [aggregate, foldl_addResult_eq results [] (by simp)]
    simp
  · decide

end GravitonAdvisor
